import Mathlib

/-!
# Verification of `plot.py` (atlarge-research/opendc-simulator)

Shallow embedding of the plotting script `src/plot.py`.  The script loads
job/task metric CSV files for a fixed grid of setups × traces × schedulers,
aggregates each column with `np.mean` / `np.std` / `np.min` / `np.max`,
normalizes each three-element sub-group of bars by the sub-group's own
maximum `max`-value, places metric-group labels above the bars, and saves
one PDF per setup and pass.

Numeric values flowing through the renderer are modelled by `Plot.Val`:
exact rationals extended with the IEEE-754 special values `+inf`, `-inf`
and `NaN` (numpy float64 semantics, idealized to exact arithmetic).
-/

namespace Plot

/-- A float64 value as numpy produces it, idealized to exact rational
arithmetic: a finite number, positive/negative infinity, or NaN. -/
inductive Val where
  | num (q : ℚ)
  | posinf
  | neginf
  | nan
deriving DecidableEq, Repr

/-- NaN test, as `np.isnan`. -/
def Val.isNan : Val → Bool
  | .nan => true
  | _ => false

/-- Binary maximum with NaN propagation, as the reduction step of `np.max`
(`np.maximum` propagates NaN; infinities compare as usual). -/
def valMax : Val → Val → Val
  | .nan, _ => .nan
  | _, .nan => .nan
  | .posinf, _ => .posinf
  | _, .posinf => .posinf
  | .neginf, b => b
  | a, .neginf => a
  | .num p, .num q => .num (max p q)

/-- IEEE-754 division as numpy performs it elementwise: `0/0 = NaN`,
`x/0 = ±inf` for nonzero finite `x`, `±inf/±inf = NaN`, `x/±inf = 0`,
NaN propagates. -/
def valDiv : Val → Val → Val
  | .nan, _ => .nan
  | _, .nan => .nan
  | .posinf, .posinf => .nan
  | .posinf, .neginf => .nan
  | .neginf, .posinf => .nan
  | .neginf, .neginf => .nan
  | .posinf, .num q => if q < 0 then .neginf else .posinf
  | .neginf, .num q => if q < 0 then .posinf else .neginf
  | .num _, .posinf => .num 0
  | .num _, .neginf => .num 0
  | .num p, .num q =>
      if q = 0 then
        if p = 0 then .nan else if 0 < p then .posinf else .neginf
      else .num (p / q)

/-- IEEE-754 addition: NaN propagates, `+inf + -inf = NaN`, infinities
absorb finite values. -/
def valAdd : Val → Val → Val
  | .nan, _ => .nan
  | _, .nan => .nan
  | .posinf, .neginf => .nan
  | .neginf, .posinf => .nan
  | .posinf, _ => .posinf
  | _, .posinf => .posinf
  | .neginf, _ => .neginf
  | _, .neginf => .neginf
  | .num p, .num q => .num (p + q)

/-! ## Aggregation (`np.mean`, `np.std`, `np.min`, `np.max` on the parsed
integer columns, `src/plot.py` lines 35-37 and 125-127) -/

/-- `np.sum` on an integer column: left-fold addition. -/
def npSum (l : List Int) : Int := l.foldl (· + ·) 0

/-- `np.mean` on an integer column: sum divided by length (exact rational
idealization of the float64 result).  Only meaningful for nonempty `l`;
on the empty list numpy warns and yields NaN, which callers model
separately (see `statQuad`). -/
def npMean (l : List Int) : ℚ := (npSum l : ℚ) / (l.length : ℚ)

/-- Rational left-fold sum, the reduction underlying `np.mean` applied to
the squared deviations. -/
def qSum (l : List ℚ) : ℚ := l.foldl (· + ·) 0

/-- The square of `np.std(l)` with numpy's default `ddof=0`: the mean of
the squared deviations from the mean (population variance, divisor `n`).
`np.std l = Real.sqrt (npVar l)`; the square root is kept outside the
definition so that the development stays executable, and is applied
explicitly in the statements that speak about the standard deviation. -/
def npVar (l : List Int) : ℚ :=
  qSum (l.map (fun x : Int => ((x : ℚ) - npMean l) ^ 2)) / (l.length : ℚ)

/-- `np.min` on an integer column: fails on an empty column
("zero-size array to reduction operation"), otherwise left-fold `min`. -/
def npMin : List Int → Except String Int
  | [] => .error "zero-size array to reduction operation minimum which has no identity"
  | x :: xs => .ok (xs.foldl min x)

/-- `np.max` on an integer column: fails on an empty column, otherwise
left-fold `max`. -/
def npMax : List Int → Except String Int
  | [] => .error "zero-size array to reduction operation maximum which has no identity"
  | x :: xs => .ok (xs.foldl max x)

/-- One entry of the results table: the list
`[np.mean l, np.std l, np.min l, np.max l]` built at `src/plot.py`
lines 35-37 / 125-127, with the standard deviation represented by the
variance `npVar` (its square; `√` is strictly monotone on `[0,∞)`, so
zero/sign/equality behaviour is unchanged). -/
structure StatQuad where
  avg : Val
  std : Val
  mn : Val
  mx : Val
deriving DecidableEq, Repr

/-- Aggregating one column.  In the source the list
`[np.mean, np.std, np.min, np.max]` raises inside `np.min` when the
column is empty (mean and std only warn and yield NaN before that), so
the whole aggregation step is fallible with the `np.min` error. -/
def statQuad (l : List Int) : Except String StatQuad := do
  let mn ← npMin l
  let mx ← npMax l
  pure ⟨Val.num (npMean l), Val.num (npVar l), Val.num (mn : ℚ), Val.num (mx : ℚ)⟩

/-- The four-element stat list stored in `results[setup][trace][sched][metric]`. -/
def stats (l : List Int) : Except String (List Val) :=
  (statQuad l).map (fun q => [q.avg, q.std, q.mn, q.mx])

/-! ## The per-(setup, trace) bar series and its normalization
(`src/plot.py` lines 56-75 job pass, 146-161 task pass)

For one subplot the script collects four nine-element arrays `avg`, `std`,
`mn`, `mx` (3 metrics × 3 schedulers, metric-major order) and then runs

    for i, _ in enumerate(metrics):
        avg[i*3:(i+1)*3] /= np.max(mx[i*3:(i+1)*3])
        std[i*3:(i+1)*3] /= np.max(mx[i*3:(i+1)*3])
        mn[i*3:(i+1)*3]  /= np.max(mx[i*3:(i+1)*3])
        mx[i*3:(i+1)*3]  /= np.max(mx[i*3:(i+1)*3])

Each iteration touches only its own slice, and `mx` is divided last, so
all four divisions of iteration `i` use `np.max` of the still-raw `mx`
slice `i`. -/

/-- The four nine-element series of one subplot, as fixed-length arrays. -/
structure Series where
  avg : Fin 9 → Val
  std : Fin 9 → Val
  mn : Fin 9 → Val
  mx : Fin 9 → Val
deriving DecidableEq

/-- Flat position of scheduler `j` inside metric sub-group `i`
(the append order of the collection loop: metric-major). -/
def subIdx (i : Fin 3) (j : Fin 3) : Fin 9 :=
  ⟨3 * i.val + j.val, by omega⟩

/-- `np.max(mx[i*3:(i+1)*3])`: left-fold NaN-propagating maximum of the
three-element sub-group `i`. -/
def sliceMax (mxv : Fin 9 → Val) (i : Fin 3) : Val :=
  valMax (valMax (mxv (subIdx i 0)) (mxv (subIdx i 1))) (mxv (subIdx i 2))

/-- One iteration of the normalization loop: divide slice `i` of all four
arrays by `np.max` of the (still raw) `mx` slice `i`. -/
def normStep (i : Fin 3) (s : Series) : Series :=
  let d := sliceMax s.mx i
  { avg := fun k => if 3 * i.val ≤ k.val ∧ k.val < 3 * i.val + 3 then valDiv (s.avg k) d else s.avg k
    std := fun k => if 3 * i.val ≤ k.val ∧ k.val < 3 * i.val + 3 then valDiv (s.std k) d else s.std k
    mn := fun k => if 3 * i.val ≤ k.val ∧ k.val < 3 * i.val + 3 then valDiv (s.mn k) d else s.mn k
    mx := fun k => if 3 * i.val ≤ k.val ∧ k.val < 3 * i.val + 3 then valDiv (s.mx k) d else s.mx k }

/-- The whole normalization loop, iterations `i = 0, 1, 2` in order. -/
def normalizeSer (s : Series) : Series :=
  normStep 2 (normStep 1 (normStep 0 s))

/-! ## Metric-group label placement
(`src/plot.py` lines 76-78 job pass, 162-164 task pass)

The labels are placed after the loop, so they read the *normalized* `mx`
array.  Note the first label of each pass reads `mx[0:2]` — only two of
the three cluster elements — while the other two read full slices
`mx[3:6]` and `mx[6:9]`; and only the job-pass `WT` label guards
against NaN. -/

/-- Job pass, `"CP"` label height: `np.max(mx[0:2]) + .05` (the slice
`[0:2]` holds elements 0 and 1 only). -/
def labelCPJob (mxv : Fin 9 → Val) : Val :=
  valAdd (valMax (mxv 0) (mxv 1)) (.num (1/20))

/-- Job pass, `"WT"` label height:
`np.max(mx[3:6]) + .05 if not np.isnan(np.max(mx[3:6])) else 0.05`. -/
def labelWTJob (mxv : Fin 9 → Val) : Val :=
  if (valMax (valMax (mxv 3) (mxv 4)) (mxv 5)).isNan then .num (1/20)
  else valAdd (valMax (valMax (mxv 3) (mxv 4)) (mxv 5)) (.num (1/20))

/-- Job pass, `"MS"` label height: `np.max(mx[6:9]) + .05`. -/
def labelMSJob (mxv : Fin 9 → Val) : Val :=
  valAdd (valMax (valMax (mxv 6) (mxv 7)) (mxv 8)) (.num (1/20))

/-- Task pass, `"EX"` label height: `np.max(mx[0:2]) + .05` (again only
elements 0 and 1), with no NaN guard. -/
def labelEXTask (mxv : Fin 9 → Val) : Val :=
  valAdd (valMax (mxv 0) (mxv 1)) (.num (1/20))

/-- Task pass, `"WT"` label height: `np.max(mx[3:6]) + .05`, no NaN guard. -/
def labelWTTask (mxv : Fin 9 → Val) : Val :=
  valAdd (valMax (valMax (mxv 3) (mxv 4)) (mxv 5)) (.num (1/20))

/-- Task pass, `"TA"` label height: `np.max(mx[6:9]) + .05`, no NaN guard. -/
def labelTATask (mxv : Fin 9 → Val) : Val :=
  valAdd (valMax (valMax (mxv 6) (mxv 7)) (mxv 8)) (.num (1/20))

/-- The `mx` array on which the computed normalized maximum of every
cluster is NaN (as happens when a sub-group's data is all zero). -/
def nanInput : Fin 9 → Val := fun _ => Val.nan

/-- A label-height computation "substitutes a fallback when the computed
normalized maximum is NaN" iff it yields a non-NaN height on `nanInput`. -/
def substitutesFallback (f : (Fin 9 → Val) → Val) : Bool :=
  !(f nanInput).isNan

/-! ## The full run (`src/plot.py` top level)

The hard-coded grid, file loading, table construction, rendering and PDF
output.  A CSV file is modelled past the `csv.DictReader` boundary as the
list of its parsed rows, each row the triple of the three extracted
integer columns (job pass: `critical_path`, `waiting_time`, `makespan`;
task pass: `execution`, `waiting`, `turnaround`). -/

/-- The hard-coded setups (`src/plot.py` line 10). -/
def setups : List String := ["setup", "setup-heterogeneous", "setup-distributed"]

/-- The hard-coded traces (`src/plot.py` line 12). -/
def traces : List String := ["shell", "askalon", "pegasus"]

/-- The hard-coded schedulers (`src/plot.py` line 13). -/
def schedulers : List String := ["FCP", "Lottery", "DS"]

/-- The parsed result files of one pass: for every
(setup, trace, scheduler) triple, the rows of that triple's CSV file. -/
def Store := String → String → String → List (Int × Int × Int)

/-- Extracting column `m` of a parsed CSV (the three `row[...]` appends
of the loading loop). -/
def col (m : Fin 3) (rows : List (Int × Int × Int)) : List Int :=
  if m.val = 0 then rows.map (fun r => r.1)
  else if m.val = 1 then rows.map (fun r => r.2.1)
  else rows.map (fun r => r.2.2)

/-- Scheduler name of flat position `j` (iteration order of the inner
collection loop). -/
def schedOf (j : Fin 3) : String :=
  if j.val = 0 then "FCP" else if j.val = 1 then "Lottery" else "DS"

/-- The aggregated stat quadruple rendered at flat position `k` of the
subplot for (`setup`, `trace`): metric `k / 3`, scheduler `k % 3`,
read from the results table built from store `st`. -/
def quadAt (st : Store) (setup trace : String) (k : Fin 9) : Except String StatQuad :=
  statQuad (col ⟨k.val / 3, by omega⟩ (st setup trace (schedOf ⟨k.val % 3, by omega⟩)))

/-- The raw (pre-normalization) series of one subplot, or the aggregation
failure that aborts the run. -/
def seriesOf (st : Store) (setup trace : String) : Except String Series := do
  let e0 ← quadAt st setup trace 0
  let e1 ← quadAt st setup trace 1
  let e2 ← quadAt st setup trace 2
  let e3 ← quadAt st setup trace 3
  let e4 ← quadAt st setup trace 4
  let e5 ← quadAt st setup trace 5
  let e6 ← quadAt st setup trace 6
  let e7 ← quadAt st setup trace 7
  let e8 ← quadAt st setup trace 8
  pure { avg := ![e0.avg, e1.avg, e2.avg, e3.avg, e4.avg, e5.avg, e6.avg, e7.avg, e8.avg]
         std := ![e0.std, e1.std, e2.std, e3.std, e4.std, e5.std, e6.std, e7.std, e8.std]
         mn := ![e0.mn, e1.mn, e2.mn, e3.mn, e4.mn, e5.mn, e6.mn, e7.mn, e8.mn]
         mx := ![e0.mx, e1.mx, e2.mx, e3.mx, e4.mx, e5.mx, e6.mx, e7.mx, e8.mx] }

/-- The numeric series rendered into the subplots of one pass: for every
(setup, trace) pair of the grid, the normalized series. -/
def renderedSeries (st : Store) : List (String × String × Except String Series) :=
  setups.flatMap (fun setup =>
    traces.map (fun trace =>
      (setup, trace, (seriesOf st setup trace).map normalizeSer)))

/-- The numeric output of the whole script.  The task pass starts over
with `results = {}` (`src/plot.py` line 108) and reads only the
`task_metrics.csv` files, so its field is computed from the task store
alone. -/
structure RunOutput where
  jobRendered : List (String × String × Except String Series)
  taskRendered : List (String × String × Except String Series)

/-- The whole script: job pass on the parsed `job_metrics.csv` store,
then a fresh table and the task pass on the parsed `task_metrics.csv`
store. -/
def fullRun (jd td : Store) : RunOutput :=
  { jobRendered := renderedSeries jd
    taskRendered := renderedSeries td }

/-! ## PDF output (`src/plot.py` lines 102 and 188) -/

/-- The file names the run saves, in temporal order: one
`{setup}_job.pdf` per setup in the job pass, then one `{setup}_task.pdf`
per setup in the task pass.  `plt.savefig` names depend only on the
setup string, never on the loaded data, which is why the two store
arguments are unused. -/
def runWrites (_jd _td : Store) : List String :=
  setups.map (fun setup => setup ++ "_job.pdf") ++
    setups.map (fun setup => setup ++ "_task.pdf")

/-- `plt.savefig` on an abstract file system: unconditional overwrite of
`name` with content `c`. -/
def writeFileFS (fs : String → Option Nat) (name : String) (c : Nat) :
    String → Option Nat :=
  fun n => if n = name then some c else fs n

/-- The file system after the run: every `savefig` applied in order,
each writing this run's figure (abstracted as the token `c`). -/
def runFS (fs : String → Option Nat) (c : Nat) (jd td : Store) :
    String → Option Nat :=
  (runWrites jd td).foldl (fun acc name => writeFileFS acc name c) fs

/-! ## The spec's aggregator contract (§4.2), stated in its own words

Reference definitions following the specification text, to be compared
with the numpy-based embedding above. -/

/-- The arithmetic mean, per the spec's words: the sum of the values
divided by how many there are. -/
def specMean (l : List Int) : ℚ :=
  (l.map (fun x : Int => (x : ℚ))).sum / (l.length : ℚ)

/-- The population variance (divisor `n`, not `n - 1`), per the textbook
formula `E[X²] - (E[X])²`; the population standard deviation of the spec
is its square root. -/
def specPopVar (l : List Int) : ℚ :=
  (l.map (fun x : Int => (x : ℚ) ^ 2)).sum / (l.length : ℚ) - specMean l ^ 2

/-- The standard definition of "the minimum of the sequence": a member
that is at most every member. -/
def IsMinOf (m : Int) (l : List Int) : Prop :=
  m ∈ l ∧ ∀ x ∈ l, m ≤ x

/-- The standard definition of "the maximum of the sequence": a member
that is at least every member. -/
def IsMaxOf (m : Int) (l : List Int) : Prop :=
  m ∈ l ∧ ∀ x ∈ l, x ≤ m

/-! ## Helper lemmas about the fold-based reductions -/

lemma foldl_add_int (l : List Int) : ∀ a : Int, l.foldl (· + ·) a = a + l.sum := by
  induction l with
  | nil => simp
  | cons x xs ih =>
      intro a
      simp only [List.foldl_cons, ih, List.sum_cons]
      ring

lemma npSum_eq_sum (l : List Int) : npSum l = l.sum := by
  simpa using foldl_add_int l 0

lemma foldl_add_rat (l : List ℚ) : ∀ a : ℚ, l.foldl (· + ·) a = a + l.sum := by
  induction l with
  | nil => simp
  | cons x xs ih =>
      intro a
      simp only [List.foldl_cons, ih, List.sum_cons]
      ring

lemma qSum_eq_sum (l : List ℚ) : qSum l = l.sum := by
  simpa [qSum] using foldl_add_rat l 0

lemma sum_sq_dev (l : List Int) (μ : ℚ) :
    (l.map (fun x : Int => ((x : ℚ) - μ) ^ 2)).sum =
      (l.map (fun x : Int => (x : ℚ) ^ 2)).sum
        - 2 * μ * (l.map (fun x : Int => (x : ℚ))).sum
        + (l.length : ℚ) * μ ^ 2 := by
  induction l with
  | nil => simp
  | cons x xs ih =>
      simp only [List.map_cons, List.sum_cons, List.length_cons, ih]
      push_cast
      ring

lemma foldl_min_isMinOf (xs : List Int) : ∀ x : Int, IsMinOf (xs.foldl min x) (x :: xs) := by
  induction xs with
  | nil =>
      intro x
      exact ⟨List.mem_singleton.mpr rfl, by simp⟩
  | cons y ys ih =>
      intro x
      obtain ⟨hmem, hle⟩ := ih (min x y)
      constructor
      · rcases List.mem_cons.mp hmem with h | h
        · rcases min_choice x y with hxy | hxy
          · exact List.mem_cons.mpr (Or.inl (h.trans hxy))
          · exact List.mem_cons.mpr (Or.inr (List.mem_cons.mpr (Or.inl (h.trans hxy))))
        · exact List.mem_cons.mpr (Or.inr (List.mem_cons.mpr (Or.inr h)))
      · intro z hz
        have hmin : ys.foldl min (min x y) ≤ min x y :=
          hle _ (List.mem_cons.mpr (Or.inl rfl))
        rw [List.foldl_cons]
        rcases List.mem_cons.mp hz with h | h
        · exact h ▸ hmin.trans (min_le_left x y)
        · rcases List.mem_cons.mp h with h' | h'
          · exact h' ▸ hmin.trans (min_le_right x y)
          · exact hle _ (List.mem_cons.mpr (Or.inr h'))

lemma foldl_max_isMaxOf (xs : List Int) : ∀ x : Int, IsMaxOf (xs.foldl max x) (x :: xs) := by
  induction xs with
  | nil =>
      intro x
      exact ⟨List.mem_singleton.mpr rfl, by simp⟩
  | cons y ys ih =>
      intro x
      obtain ⟨hmem, hle⟩ := ih (max x y)
      constructor
      · rcases List.mem_cons.mp hmem with h | h
        · rcases max_choice x y with hxy | hxy
          · exact List.mem_cons.mpr (Or.inl (h.trans hxy))
          · exact List.mem_cons.mpr (Or.inr (List.mem_cons.mpr (Or.inl (h.trans hxy))))
        · exact List.mem_cons.mpr (Or.inr (List.mem_cons.mpr (Or.inr h)))
      · intro z hz
        have hmax : max x y ≤ ys.foldl max (max x y) :=
          hle _ (List.mem_cons.mpr (Or.inl rfl))
        rw [List.foldl_cons]
        rcases List.mem_cons.mp hz with h | h
        · exact h ▸ (le_max_left x y).trans hmax
        · rcases List.mem_cons.mp h with h' | h'
          · exact h' ▸ (le_max_right x y).trans hmax
          · exact hle _ (List.mem_cons.mpr (Or.inr h'))

lemma npMin_spec (l : List Int) (h : l ≠ []) :
    ∃ m, npMin l = .ok m ∧ IsMinOf m l := by
  obtain ⟨x, xs, rfl⟩ := List.exists_cons_of_ne_nil h
  exact ⟨xs.foldl min x, rfl, foldl_min_isMinOf xs x⟩

lemma npMax_spec (l : List Int) (h : l ≠ []) :
    ∃ m, npMax l = .ok m ∧ IsMaxOf m l := by
  obtain ⟨x, xs, rfl⟩ := List.exists_cons_of_ne_nil h
  exact ⟨xs.foldl max x, rfl, foldl_max_isMaxOf xs x⟩

lemma length_cast_pos (l : List Int) (h : l ≠ []) : (0 : ℚ) < (l.length : ℚ) := by
  have h0 : 0 < l.length := List.length_pos.mpr h
  exact_mod_cast h0

lemma length_cast_ne_zero (l : List Int) (h : l ≠ []) : ((l.length : ℚ)) ≠ 0 :=
  ne_of_gt (length_cast_pos l h)

lemma npMean_eq_specMean (l : List Int) : npMean l = specMean l := by
  unfold npMean specMean
  rw [npSum_eq_sum, Int.cast_list_sum]

lemma npVar_eq_specPopVar (l : List Int) (h : l ≠ []) : npVar l = specPopVar l := by
  have hn := length_cast_ne_zero l h
  unfold npVar specPopVar
  rw [qSum_eq_sum, sum_sq_dev, npMean_eq_specMean]
  unfold specMean
  field_simp
  ring

lemma npMean_le_of_le (l : List Int) (h : l ≠ []) (M : Int) (hM : ∀ x ∈ l, x ≤ M) :
    npMean l ≤ (M : ℚ) := by
  have hn := length_cast_pos l h
  rw [npMean_eq_specMean]
  unfold specMean
  rw [div_le_iff₀ hn]
  have hb : (l.map (fun x : Int => (x : ℚ))).sum ≤
      (l.map (fun x : Int => (x : ℚ))).length • (M : ℚ) := by
    apply List.sum_le_card_nsmul
    intro q hq
    obtain ⟨x, hx, rfl⟩ := List.mem_map.mp hq
    exact_mod_cast hM x hx
  simpa [nsmul_eq_mul, mul_comm] using hb

lemma le_npMean_of_le (l : List Int) (h : l ≠ []) (m : Int) (hm : ∀ x ∈ l, m ≤ x) :
    (m : ℚ) ≤ npMean l := by
  have hn := length_cast_pos l h
  rw [npMean_eq_specMean]
  unfold specMean
  rw [le_div_iff₀ hn]
  have hb : (l.map (fun x : Int => (x : ℚ))).length • (m : ℚ) ≤
      (l.map (fun x : Int => (x : ℚ))).sum := by
    apply List.card_nsmul_le_sum
    intro q hq
    obtain ⟨x, hx, rfl⟩ := List.mem_map.mp hq
    exact_mod_cast hm x hx
  simpa [nsmul_eq_mul, mul_comm] using hb

lemma npVar_nonneg (l : List Int) : 0 ≤ npVar l := by
  unfold npVar
  apply div_nonneg _ (by positivity)
  rw [qSum_eq_sum]
  apply List.sum_nonneg
  intro q hq
  obtain ⟨x, hx, rfl⟩ := List.mem_map.mp hq
  positivity

/-! ## Helper lemmas about the normalization loop -/

lemma subIdx_in_slice (i j : Fin 3) :
    3 * i.val ≤ (subIdx i j).val ∧ (subIdx i j).val < 3 * i.val + 3 := by
  have hj := j.isLt
  simp only [subIdx]
  omega

lemma subIdx_not_in_slice (i st j : Fin 3) (h : i ≠ st) :
    ¬(3 * st.val ≤ (subIdx i j).val ∧ (subIdx i j).val < 3 * st.val + 3) := by
  have hv : i.val ≠ st.val := fun hc => h (Fin.ext hc)
  have hi := i.isLt
  have hst := st.isLt
  have hj := j.isLt
  simp only [subIdx]
  omega

lemma normStep_outside (st : Fin 3) (s : Series) (k : Fin 9)
    (h : ¬(3 * st.val ≤ k.val ∧ k.val < 3 * st.val + 3)) :
    (normStep st s).avg k = s.avg k ∧ (normStep st s).std k = s.std k ∧
    (normStep st s).mn k = s.mn k ∧ (normStep st s).mx k = s.mx k := by
  simp [normStep, h]

lemma normStep_inside (st : Fin 3) (s : Series) (k : Fin 9)
    (h : 3 * st.val ≤ k.val ∧ k.val < 3 * st.val + 3) :
    (normStep st s).avg k = valDiv (s.avg k) (sliceMax s.mx st) ∧
    (normStep st s).std k = valDiv (s.std k) (sliceMax s.mx st) ∧
    (normStep st s).mn k = valDiv (s.mn k) (sliceMax s.mx st) ∧
    (normStep st s).mx k = valDiv (s.mx k) (sliceMax s.mx st) := by
  simp [normStep, h]

/-- Iterations of the loop other than `i` never touch the `mx` slice `i`,
so the divisor read by iteration `i` is the raw sub-group maximum. -/
lemma sliceMax_normStep (i st : Fin 3) (s : Series) (h : i ≠ st) :
    sliceMax (normStep st s).mx i = sliceMax s.mx i := by
  unfold sliceMax
  rw [(normStep_outside st s (subIdx i 0) (subIdx_not_in_slice i st 0 h)).2.2.2,
    (normStep_outside st s (subIdx i 1) (subIdx_not_in_slice i st 1 h)).2.2.2,
    (normStep_outside st s (subIdx i 2) (subIdx_not_in_slice i st 2 h)).2.2.2]

/-- The whole loop, pointwise: every position of sub-group `i`, in all
four arrays, ends up divided by the raw maximum of the `mx` slice `i`. -/
lemma normalizeSer_at (s : Series) (i j : Fin 3) :
    (normalizeSer s).avg (subIdx i j) = valDiv (s.avg (subIdx i j)) (sliceMax s.mx i) ∧
    (normalizeSer s).std (subIdx i j) = valDiv (s.std (subIdx i j)) (sliceMax s.mx i) ∧
    (normalizeSer s).mn (subIdx i j) = valDiv (s.mn (subIdx i j)) (sliceMax s.mx i) ∧
    (normalizeSer s).mx (subIdx i j) = valDiv (s.mx (subIdx i j)) (sliceMax s.mx i) := by
  unfold normalizeSer
  fin_cases i
  · have hin := normStep_inside 0 s (subIdx 0 j) (subIdx_in_slice 0 j)
    have o1 := normStep_outside 1 (normStep 0 s) (subIdx 0 j)
      (subIdx_not_in_slice 0 1 j (by decide))
    have o2 := normStep_outside 2 (normStep 1 (normStep 0 s)) (subIdx 0 j)
      (subIdx_not_in_slice 0 2 j (by decide))
    exact ⟨o2.1.trans (o1.1.trans hin.1),
      o2.2.1.trans (o1.2.1.trans hin.2.1),
      o2.2.2.1.trans (o1.2.2.1.trans hin.2.2.1),
      o2.2.2.2.trans (o1.2.2.2.trans hin.2.2.2)⟩
  · have o0 := normStep_outside 0 s (subIdx 1 j) (subIdx_not_in_slice 1 0 j (by decide))
    have e1 := sliceMax_normStep 1 0 s (by decide)
    have hin := normStep_inside 1 (normStep 0 s) (subIdx 1 j) (subIdx_in_slice 1 j)
    have o2 := normStep_outside 2 (normStep 1 (normStep 0 s)) (subIdx 1 j)
      (subIdx_not_in_slice 1 2 j (by decide))
    refine ⟨o2.1.trans ?_, o2.2.1.trans ?_, o2.2.2.1.trans ?_, o2.2.2.2.trans ?_⟩
    · rw [hin.1, e1, o0.1]
      rfl
    · rw [hin.2.1, e1, o0.2.1]
      rfl
    · rw [hin.2.2.1, e1, o0.2.2.1]
      rfl
    · rw [hin.2.2.2, e1, o0.2.2.2]
      rfl
  · have o0 := normStep_outside 0 s (subIdx 2 j) (subIdx_not_in_slice 2 0 j (by decide))
    have o1 := normStep_outside 1 (normStep 0 s) (subIdx 2 j)
      (subIdx_not_in_slice 2 1 j (by decide))
    have e2 : sliceMax (normStep 1 (normStep 0 s)).mx 2 = sliceMax s.mx 2 :=
      (sliceMax_normStep 2 1 (normStep 0 s) (by decide)).trans
        (sliceMax_normStep 2 0 s (by decide))
    have hin := normStep_inside 2 (normStep 1 (normStep 0 s)) (subIdx 2 j)
      (subIdx_in_slice 2 j)
    refine ⟨hin.1.trans ?_, hin.2.1.trans ?_, hin.2.2.1.trans ?_, hin.2.2.2.trans ?_⟩
    · rw [e2, o1.1, o0.1]
      rfl
    · rw [e2, o1.2.1, o0.2.1]
      rfl
    · rw [e2, o1.2.2.1, o0.2.2.1]
      rfl
    · rw [e2, o1.2.2.2, o0.2.2.2]
      rfl

lemma valDiv_num_num (q m : ℚ) (hm : m ≠ 0) :
    valDiv (Val.num q) (Val.num m) = Val.num (q / m) := by
  simp [valDiv, hm]

/-! ## The claims -/

/-- C4: given any non-empty sequence of integers, the aggregator
(`np.mean` / `np.std` / `np.min` / `np.max` at `src/plot.py` lines 35-37
and 125-127) produces exactly the arithmetic mean, the population
standard deviation (divisor `n`, not `n - 1`; stated via its square, the
variance, and via `Real.sqrt` of it), the minimum and the maximum of the
sequence, matching the standard statistical definitions (`specMean`,
`specPopVar`, `IsMinOf`, `IsMaxOf`). -/
theorem c4_aggregator_matches_spec (l : List Int) (h : l ≠ []) :
    npMean l = specMean l ∧
    npVar l = specPopVar l ∧
    Real.sqrt ((npVar l : ℝ)) = Real.sqrt ((specPopVar l : ℝ)) ∧
    (∃ m, npMin l = .ok m ∧ IsMinOf m l) ∧
    (∃ M, npMax l = .ok M ∧ IsMaxOf M l) :=
  ⟨npMean_eq_specMean l, npVar_eq_specPopVar l h,
    by rw [npVar_eq_specPopVar l h], npMin_spec l h, npMax_spec l h⟩

/-- Witness for C4 at the concrete column `[1, 2, 3]`. -/
theorem c4_aggregator_matches_spec_witness :
    ([1, 2, 3] : List Int) ≠ [] ∧
      (npMean [1, 2, 3] = specMean [1, 2, 3] ∧
        npVar [1, 2, 3] = specPopVar [1, 2, 3] ∧
        Real.sqrt ((npVar [1, 2, 3] : ℝ)) = Real.sqrt ((specPopVar [1, 2, 3] : ℝ)) ∧
        (∃ m, npMin [1, 2, 3] = .ok m ∧ IsMinOf m [1, 2, 3]) ∧
        (∃ M, npMax [1, 2, 3] = .ok M ∧ IsMaxOf M [1, 2, 3])) :=
  ⟨by decide, c4_aggregator_matches_spec [1, 2, 3] (by decide)⟩

/-- C5: for every non-empty integer sequence, the aggregator's outputs
satisfy `min ≤ mean ≤ max`, and the standard deviation
(`√` of the variance `npVar`) is nonnegative. -/
theorem c5_stat_ordering (l : List Int) (h : l ≠ []) :
    ∃ m M, npMin l = .ok m ∧ npMax l = .ok M ∧
      (m : ℚ) ≤ npMean l ∧ npMean l ≤ (M : ℚ) ∧
      0 ≤ npVar l ∧ 0 ≤ Real.sqrt ((npVar l : ℝ)) := by
  obtain ⟨m, hmeq, _, hlb⟩ := npMin_spec l h
  obtain ⟨M, hMeq, _, hub⟩ := npMax_spec l h
  exact ⟨m, M, hmeq, hMeq, le_npMean_of_le l h m hlb, npMean_le_of_le l h M hub,
    npVar_nonneg l, Real.sqrt_nonneg _⟩

/-- Witness for C5 at the concrete column `[1, 2, 3]`. -/
theorem c5_stat_ordering_witness :
    ([1, 2, 3] : List Int) ≠ [] ∧
      (∃ m M, npMin [1, 2, 3] = .ok m ∧ npMax [1, 2, 3] = .ok M ∧
        (m : ℚ) ≤ npMean [1, 2, 3] ∧ npMean [1, 2, 3] ≤ (M : ℚ) ∧
        0 ≤ npVar [1, 2, 3] ∧ 0 ≤ Real.sqrt ((npVar [1, 2, 3] : ℝ))) :=
  ⟨by decide, c5_stat_ordering [1, 2, 3] (by decide)⟩

/-- C1: for every three-element sub-group whose maximum raw `max` value
`m` is strictly positive, the normalization loop maps every finite
element `x` of the `avg`, `std`, `mn` and `mx` arrays of that sub-group
to `x / m`, and the element that was equal to `m` maps to exactly `1`. -/
theorem c1_subgroup_normalization (s : Series) (i : Fin 3) (m : ℚ)
    (hm : sliceMax s.mx i = Val.num m) (hpos : 0 < m) :
    (∀ j : Fin 3, ∀ q : ℚ,
      (s.avg (subIdx i j) = Val.num q →
        (normalizeSer s).avg (subIdx i j) = Val.num (q / m)) ∧
      (s.std (subIdx i j) = Val.num q →
        (normalizeSer s).std (subIdx i j) = Val.num (q / m)) ∧
      (s.mn (subIdx i j) = Val.num q →
        (normalizeSer s).mn (subIdx i j) = Val.num (q / m)) ∧
      (s.mx (subIdx i j) = Val.num q →
        (normalizeSer s).mx (subIdx i j) = Val.num (q / m))) ∧
    (∀ j : Fin 3, s.mx (subIdx i j) = Val.num m →
      (normalizeSer s).mx (subIdx i j) = Val.num 1) := by
  have hm0 : m ≠ 0 := ne_of_gt hpos
  constructor
  · intro j q
    obtain ⟨ha, hs, hn, hx⟩ := normalizeSer_at s i j
    exact ⟨fun h => by rw [ha, h, hm, valDiv_num_num q m hm0],
      fun h => by rw [hs, h, hm, valDiv_num_num q m hm0],
      fun h => by rw [hn, h, hm, valDiv_num_num q m hm0],
      fun h => by rw [hx, h, hm, valDiv_num_num q m hm0]⟩
  · intro j h
    obtain ⟨_, _, _, hx⟩ := normalizeSer_at s i j
    rw [hx, h, hm, valDiv_num_num m m hm0, div_self hm0]

/-- A concrete raw series: first sub-group has `max`-values `(2, 2, 4)`
(raw maximum `4`, attained at position 2), the other two sub-groups are
all ones. -/
def serPos : Series :=
  { avg := ![Val.num (3/2), Val.num (3/2), Val.num 3, Val.num 1, Val.num 1, Val.num 1,
      Val.num 1, Val.num 1, Val.num 1]
    std := ![Val.num 0, Val.num 0, Val.num 0, Val.num 0, Val.num 0, Val.num 0,
      Val.num 0, Val.num 0, Val.num 0]
    mn := ![Val.num 1, Val.num 1, Val.num 2, Val.num 1, Val.num 1, Val.num 1,
      Val.num 1, Val.num 1, Val.num 1]
    mx := ![Val.num 2, Val.num 2, Val.num 4, Val.num 1, Val.num 1, Val.num 1,
      Val.num 1, Val.num 1, Val.num 1] }

/-- Witness for C1 at `serPos`, sub-group 0, maximum `m = 4`. -/
theorem c1_subgroup_normalization_witness :
    sliceMax serPos.mx 0 = Val.num 4 ∧ (0 : ℚ) < 4 ∧
      ((∀ j : Fin 3, ∀ q : ℚ,
        (serPos.avg (subIdx 0 j) = Val.num q →
          (normalizeSer serPos).avg (subIdx 0 j) = Val.num (q / 4)) ∧
        (serPos.std (subIdx 0 j) = Val.num q →
          (normalizeSer serPos).std (subIdx 0 j) = Val.num (q / 4)) ∧
        (serPos.mn (subIdx 0 j) = Val.num q →
          (normalizeSer serPos).mn (subIdx 0 j) = Val.num (q / 4)) ∧
        (serPos.mx (subIdx 0 j) = Val.num q →
          (normalizeSer serPos).mx (subIdx 0 j) = Val.num (q / 4))) ∧
      (∀ j : Fin 3, serPos.mx (subIdx 0 j) = Val.num 4 →
        (normalizeSer serPos).mx (subIdx 0 j) = Val.num 1)) :=
  ⟨by decide, by norm_num, c1_subgroup_normalization serPos 0 4 (by decide) (by norm_num)⟩

/-- C9: inside a sub-group with strictly positive raw maximum `m`, all
four arrays are divided by the same scalar `m` (read from the raw `mx`
slice before it is overwritten), so the pointwise ordering
`min ≤ avg ≤ max` is preserved by normalization. -/
theorem c9_ordering_preserved (s : Series) (i j : Fin 3) (m a b c : ℚ)
    (hm : sliceMax s.mx i = Val.num m) (hpos : 0 < m)
    (hmn : s.mn (subIdx i j) = Val.num a)
    (havg : s.avg (subIdx i j) = Val.num b)
    (hmx : s.mx (subIdx i j) = Val.num c)
    (hab : a ≤ b) (hbc : b ≤ c) :
    (normalizeSer s).mn (subIdx i j) = Val.num (a / m) ∧
    (normalizeSer s).avg (subIdx i j) = Val.num (b / m) ∧
    (normalizeSer s).mx (subIdx i j) = Val.num (c / m) ∧
    a / m ≤ b / m ∧ b / m ≤ c / m := by
  have hm0 : m ≠ 0 := ne_of_gt hpos
  obtain ⟨ha, _, hn, hx⟩ := normalizeSer_at s i j
  refine ⟨by rw [hn, hmn, hm, valDiv_num_num a m hm0],
    by rw [ha, havg, hm, valDiv_num_num b m hm0],
    by rw [hx, hmx, hm, valDiv_num_num c m hm0], ?_, ?_⟩
  · gcongr
  · gcongr

/-- Witness for C9 at `serPos`, sub-group 0, position 2
(`min = 2 ≤ avg = 3 ≤ max = 4`, divisor `m = 4`). -/
theorem c9_ordering_preserved_witness :
    sliceMax serPos.mx 0 = Val.num 4 ∧ (0 : ℚ) < 4 ∧
      serPos.mn (subIdx 0 2) = Val.num 2 ∧
      serPos.avg (subIdx 0 2) = Val.num 3 ∧
      serPos.mx (subIdx 0 2) = Val.num 4 ∧
      (2 : ℚ) ≤ 3 ∧ (3 : ℚ) ≤ 4 ∧
      ((normalizeSer serPos).mn (subIdx 0 2) = Val.num (2 / 4) ∧
        (normalizeSer serPos).avg (subIdx 0 2) = Val.num (3 / 4) ∧
        (normalizeSer serPos).mx (subIdx 0 2) = Val.num (4 / 4) ∧
        (2 : ℚ) / 4 ≤ 3 / 4 ∧ (3 : ℚ) / 4 ≤ 4 / 4) :=
  ⟨by decide, by norm_num, by decide, by decide, by decide, by norm_num, by norm_num,
    c9_ordering_preserved serPos 0 2 4 2 3 4 (by decide) (by norm_num)
      (by decide) (by decide) (by decide) (by norm_num) (by norm_num)⟩

/-- C6 (amended): if every value of a three-element sub-group is zero
across all four arrays, normalization produces NaN for every element of
that sub-group — `0 / 0 = NaN`, with no error and no substitution.
(The original claim, hypothesizing only that the `max`-values are zero,
is refuted by `c6_counterexample` below: a negative `avg` entry divided
by the zero maximum gives `-inf`, not NaN.) -/
theorem c6_amended_zero_subgroup (s : Series) (i : Fin 3)
    (h : ∀ j : Fin 3,
      s.avg (subIdx i j) = Val.num 0 ∧ s.std (subIdx i j) = Val.num 0 ∧
      s.mn (subIdx i j) = Val.num 0 ∧ s.mx (subIdx i j) = Val.num 0) :
    ∀ j : Fin 3,
      (normalizeSer s).avg (subIdx i j) = Val.nan ∧
      (normalizeSer s).std (subIdx i j) = Val.nan ∧
      (normalizeSer s).mn (subIdx i j) = Val.nan ∧
      (normalizeSer s).mx (subIdx i j) = Val.nan := by
  have hm : sliceMax s.mx i = Val.num 0 := by
    unfold sliceMax
    rw [(h 0).2.2.2, (h 1).2.2.2, (h 2).2.2.2]
    simp [valMax]
  intro j
  obtain ⟨ha, hs, hn, hx⟩ := normalizeSer_at s i j
  obtain ⟨h1, h2, h3, h4⟩ := h j
  refine ⟨?_, ?_, ?_, ?_⟩
  · rw [ha, h1, hm]; simp [valDiv]
  · rw [hs, h2, hm]; simp [valDiv]
  · rw [hn, h3, hm]; simp [valDiv]
  · rw [hx, h4, hm]; simp [valDiv]

/-- A series that is zero everywhere. -/
def serZero : Series :=
  { avg := fun _ => Val.num 0
    std := fun _ => Val.num 0
    mn := fun _ => Val.num 0
    mx := fun _ => Val.num 0 }

/-- Witness for the amended C6 at the all-zero series, sub-group 0. -/
theorem c6_amended_zero_subgroup_witness :
    (∀ j : Fin 3,
      serZero.avg (subIdx 0 j) = Val.num 0 ∧ serZero.std (subIdx 0 j) = Val.num 0 ∧
      serZero.mn (subIdx 0 j) = Val.num 0 ∧ serZero.mx (subIdx 0 j) = Val.num 0) ∧
    (∀ j : Fin 3,
      (normalizeSer serZero).avg (subIdx 0 j) = Val.nan ∧
      (normalizeSer serZero).std (subIdx 0 j) = Val.nan ∧
      (normalizeSer serZero).mn (subIdx 0 j) = Val.nan ∧
      (normalizeSer serZero).mx (subIdx 0 j) = Val.nan) :=
  ⟨by decide, c6_amended_zero_subgroup serZero 0 (by decide)⟩

/-- The series produced when every scheduler's parsed column is
`[-4, 0]`: mean `-2`, variance `4`, minimum `-4`, maximum `0` at every
position (see the first conjunct of `c6_counterexample`). -/
def serC6 : Series :=
  { avg := fun _ => Val.num (-2)
    std := fun _ => Val.num 4
    mn := fun _ => Val.num (-4)
    mx := fun _ => Val.num 0 }

/-- Counterexample to C6 as stated: the column `[-4, 0]` aggregates to
mean `-2` and `max`-value `0`, so a sub-group whose three `max`-values
are all zero need not have zero `avg`/`min` entries — and normalizing
`serC6` maps the `avg` entry to `-inf` (negative mean divided by the
zero maximum), not to NaN. -/
theorem c6_counterexample :
    statQuad [-4, 0] = .ok ⟨Val.num (-2), Val.num 4, Val.num (-4), Val.num 0⟩ ∧
    (∀ j : Fin 3, serC6.mx (subIdx 0 j) = Val.num 0) ∧
    (normalizeSer serC6).avg (subIdx 0 0) = Val.neginf ∧
    ((normalizeSer serC6).avg (subIdx 0 0)).isNan = false := by
  have hd : sliceMax serC6.mx 0 = Val.num 0 := by decide
  have ha : (normalizeSer serC6).avg (subIdx 0 0) = Val.neginf := by
    rw [(normalizeSer_at serC6 0 0).1, hd,
      show serC6.avg (subIdx 0 0) = Val.num (-2) from rfl]
    decide
  have hmean : npMean [-4, 0] = -2 := by norm_num [npMean, npSum]
  have hvar : npVar [-4, 0] = 4 := by norm_num [npVar, npMean, npSum, qSum]
  refine ⟨?_, by decide, ha, by rw [ha]; rfl⟩
  calc statQuad [-4, 0]
      = Except.ok ⟨Val.num (npMean [-4, 0]), Val.num (npVar [-4, 0]),
          Val.num ((-4 : Int) : ℚ), Val.num ((0 : Int) : ℚ)⟩ := rfl
    _ = Except.ok ⟨Val.num (-2), Val.num 4, Val.num (-4), Val.num 0⟩ := by
        rw [hmean, hvar]
        norm_num

/-- C2 (refuted, code bug): at the normalized series of `serPos` — first
sub-group raw `max`-values `(2, 2, 4)`, so normalized `(1/2, 1/2, 1)` —
the job pass places the `CP` label at `np.max(mx[0:2]) + .05 = 0.55`,
while the cluster's tallest normalized bar plus `0.05` is `1.05`: the
code reads only two of the three cluster elements (`mx[0:2]` instead of
`mx[0:3]`, unlike the `[3:6]` and `[6:9]` slices of the other labels). -/
theorem c2_first_cluster_label_bug :
    labelCPJob (normalizeSer serPos).mx = Val.num (11/20) ∧
    sliceMax (normalizeSer serPos).mx 0 = Val.num 1 ∧
    valAdd (sliceMax (normalizeSer serPos).mx 0) (Val.num (1/20)) = Val.num (21/20) ∧
    labelCPJob (normalizeSer serPos).mx ≠
      valAdd (sliceMax (normalizeSer serPos).mx 0) (Val.num (1/20)) := by
  have hd : sliceMax serPos.mx 0 = Val.num 4 := by decide
  have h4 : (4 : ℚ) ≠ 0 := by norm_num
  have e0 : (normalizeSer serPos).mx (subIdx 0 0) = Val.num (1/2) := by
    rw [(normalizeSer_at serPos 0 0).2.2.2, hd,
      show serPos.mx (subIdx 0 0) = Val.num 2 from rfl, valDiv_num_num 2 4 h4]
    norm_num
  have e1 : (normalizeSer serPos).mx (subIdx 0 1) = Val.num (1/2) := by
    rw [(normalizeSer_at serPos 0 1).2.2.2, hd,
      show serPos.mx (subIdx 0 1) = Val.num 2 from rfl, valDiv_num_num 2 4 h4]
    norm_num
  have e2 : (normalizeSer serPos).mx (subIdx 0 2) = Val.num 1 := by
    rw [(normalizeSer_at serPos 0 2).2.2.2, hd,
      show serPos.mx (subIdx 0 2) = Val.num 4 from rfl, valDiv_num_num 4 4 h4]
    norm_num
  have e0' : (normalizeSer serPos).mx 0 = Val.num (1/2) := by
    rw [show (0 : Fin 9) = subIdx 0 0 from rfl]
    exact e0
  have e1' : (normalizeSer serPos).mx 1 = Val.num (1/2) := by
    rw [show (1 : Fin 9) = subIdx 0 1 from rfl]
    exact e1
  have hlab : labelCPJob (normalizeSer serPos).mx = Val.num (11/20) := by
    unfold labelCPJob
    rw [e0', e1']
    norm_num [valMax, valAdd, max_def]
  have hmax : sliceMax (normalizeSer serPos).mx 0 = Val.num 1 := by
    unfold sliceMax
    rw [e0, e1, e2]
    norm_num [valMax, max_def]
  refine ⟨hlab, hmax, ?_, ?_⟩
  · rw [hmax]
    norm_num [valAdd]
  · rw [hlab, hmax]
    norm_num [valAdd]

/-- C3 (refuted for the task pass): on an `mx` array whose computed
cluster maxima are all NaN, *none* of the three task-pass label-height
computations substitutes a fallback — all three produce NaN — so it is
not the case that exactly one computation per rendering pass guards
against NaN. -/
theorem c3_counterexample :
    substitutesFallback labelEXTask = false ∧
    substitutesFallback labelWTTask = false ∧
    substitutesFallback labelTATask = false ∧
    ((if substitutesFallback labelEXTask then 1 else 0) +
      (if substitutesFallback labelWTTask then 1 else 0) +
      (if substitutesFallback labelTATask then 1 else 0) : Nat) ≠ 1 := by
  decide

/-- C3 (amended): across the six label-height computations of the run,
exactly one — the job-pass `WT` label — substitutes the fallback `0.05`
when its computed normalized maximum is NaN; the other two job-pass
computations and all three task-pass computations perform no NaN
substitution. -/
theorem c3_amended_guard_asymmetry :
    substitutesFallback labelWTJob = true ∧
    substitutesFallback labelCPJob = false ∧
    substitutesFallback labelMSJob = false ∧
    substitutesFallback labelEXTask = false ∧
    substitutesFallback labelWTTask = false ∧
    substitutesFallback labelTATask = false := by
  decide

/-- The store of a run whose CSV files contain only a header: every
parsed row list is empty. -/
def emptyStore : Store := fun _ _ _ => []

/-- C7: aggregating an empty column fails (inside `np.min`) instead of
silently producing zero-filled statistics, and therefore so does the
table-building step `quadAt` for a (setup, trace, scheduler) whose CSV
has a header and zero rows. -/
theorem c7_empty_csv_aborts :
    stats [] = .error "zero-size array to reduction operation minimum which has no identity" ∧
    stats [] ≠ .ok [Val.num 0, Val.num 0, Val.num 0, Val.num 0] ∧
    quadAt emptyStore "setup" "shell" 0 =
      .error "zero-size array to reduction operation minimum which has no identity" := by
  have h1 : stats [] =
      .error "zero-size array to reduction operation minimum which has no identity" := rfl
  refine ⟨h1, ?_, rfl⟩
  rw [h1]
  intro h
  exact Except.noConfusion h

/-- C8: a complete run writes exactly the six PDFs `{setup}_job.pdf` and
`{setup}_task.pdf` over the three hard-coded setups, with names that do
not depend on the loaded numeric data, and every one of these files
holds this run's figure afterwards regardless of the pre-existing file
system (unconditional overwrite). -/
theorem c8_pdf_outputs (jd td jd' td' : Store) (fs : String → Option Nat) (c : Nat)
    (name : String) (hname : name ∈ runWrites jd td) :
    runWrites jd td =
      ["setup_job.pdf", "setup-heterogeneous_job.pdf", "setup-distributed_job.pdf",
        "setup_task.pdf", "setup-heterogeneous_task.pdf", "setup-distributed_task.pdf"] ∧
    (runWrites jd td).length = 6 ∧
    (runWrites jd td).Nodup ∧
    runWrites jd td = runWrites jd' td' ∧
    runFS fs c jd td name = some c := by
  refine ⟨rfl, rfl,
    (by decide :
      (["setup_job.pdf", "setup-heterogeneous_job.pdf", "setup-distributed_job.pdf",
        "setup_task.pdf", "setup-heterogeneous_task.pdf",
        "setup-distributed_task.pdf"] : List String).Nodup),
    rfl, ?_⟩
  have h : name ∈
      (["setup_job.pdf", "setup-heterogeneous_job.pdf", "setup-distributed_job.pdf",
        "setup_task.pdf", "setup-heterogeneous_task.pdf",
        "setup-distributed_task.pdf"] : List String) := hname
  fin_cases h <;> simp [runFS, runWrites, setups, writeFileFS]

/-- Witness for C8 at the empty store, the empty file system, and the
first output name. -/
theorem c8_pdf_outputs_witness :
    "setup_job.pdf" ∈ runWrites emptyStore emptyStore ∧
      (runWrites emptyStore emptyStore =
        ["setup_job.pdf", "setup-heterogeneous_job.pdf", "setup-distributed_job.pdf",
          "setup_task.pdf", "setup-heterogeneous_task.pdf", "setup-distributed_task.pdf"] ∧
      (runWrites emptyStore emptyStore).length = 6 ∧
      (runWrites emptyStore emptyStore).Nodup ∧
      runWrites emptyStore emptyStore = runWrites emptyStore emptyStore ∧
      runFS (fun _ => none) 0 emptyStore emptyStore "setup_job.pdf" = some 0) :=
  ⟨by decide, c8_pdf_outputs emptyStore emptyStore emptyStore emptyStore
    (fun _ => none) 0 "setup_job.pdf" (by decide)⟩

/-- C10: the task pass rebuilds the results table from scratch
(`results = {}` at `src/plot.py` line 108) and reads only the task
store, so two runs whose `task_metrics.csv` files agree render identical
task-pass numeric series no matter how their `job_metrics.csv` files
differ. -/
theorem c10_task_pass_independent_of_job_data (jd jd' td : Store) :
    (fullRun jd td).taskRendered = (fullRun jd' td).taskRendered := rfl

end Plot
